import Mathlib

/-!
# Verification of the daily stock analysis pipeline

A shallow embedding of the core components of the repository
(scanner_cn.py, price_monitor.py, api.py) together with proofs of the
specified properties.  Prices, volumes and indicator values are modelled
as exact rationals; optional (nullable) fields are modelled as `Option ℚ`,
with `none` standing for Python's `None`.  Python truthiness of an optional
float (`None` and `0.0` are falsy) is modelled explicitly by `truthy`.
-/

namespace DailyStock

/-! ## Threshold monitor (price_monitor.py) -/

/-- An AI stock recommendation row (storage model `AIStockRecommendation`),
restricted to the fields read by `PriceMonitor._check_price_condition`.
Nullable float columns become `Option ℚ`. -/
structure Recommendation where
  stock_code : String
  stock_name : String
  buy_price_min : Option ℚ
  buy_price_max : Option ℚ
  take_profit_price_min : Option ℚ
  take_profit_price_max : Option ℚ
  stop_loss_price_min : Option ℚ
  stop_loss_price_max : Option ℚ

/-- Python truthiness of an optional float: `None` and `0.0` are falsy,
every other float is truthy. -/
def truthy : Option ℚ → Bool
  | none => false
  | some q => decide (q ≠ 0)

/-- Message type constant `PriceMonitor.MSG_TYPE_AI_ANALYSIS`. -/
def MSG_TYPE_AI_ANALYSIS : Nat := 1

/-- Message type constant `PriceMonitor.MSG_TYPE_BUY`. -/
def MSG_TYPE_BUY : Nat := 2

/-- Message type constant `PriceMonitor.MSG_TYPE_TAKE_PROFIT`. -/
def MSG_TYPE_TAKE_PROFIT : Nat := 3

/-- Message type constant `PriceMonitor.MSG_TYPE_STOP_LOSS`. -/
def MSG_TYPE_STOP_LOSS : Nat := 4

/-- The check `PriceMonitor._check_price_condition`: given a recommendation and the
current quote price, the list of message types for which a push is
triggered, in source order (buy, take-profit, stop-loss).  Each band check
runs only when both of its bounds are truthy (Python `and` on floats); the
buy check compares both bounds against the price, the take-profit check
compares only the lower bound, the stop-loss check only the upper bound. -/
def check_price_condition (rec : Recommendation) (price : ℚ) : List Nat :=
  (if truthy rec.buy_price_min = true ∧ truthy rec.buy_price_max = true
      ∧ rec.buy_price_min.getD 0 ≤ price ∧ price ≤ rec.buy_price_max.getD 0
   then [MSG_TYPE_BUY] else [])
  ++
  (if truthy rec.take_profit_price_min = true ∧ truthy rec.take_profit_price_max = true
      ∧ rec.take_profit_price_min.getD 0 ≤ price
   then [MSG_TYPE_TAKE_PROFIT] else [])
  ++
  (if truthy rec.stop_loss_price_min = true ∧ truthy rec.stop_loss_price_max = true
      ∧ price ≤ rec.stop_loss_price_max.getD 0
   then [MSG_TYPE_STOP_LOSS] else [])

/-- A persisted push record (`PushMessageRecord`), restricted to the
dedup key fields: stock code, message type and calendar day (the day is
abstracted as a natural number). -/
structure PushRec where
  stock_code : String
  message_type : Nat
  day : Nat
deriving DecidableEq

/-- The push-record store. -/
structure MonitorDB where
  push_records : List PushRec

/-- Whether a push record carries the given dedup key. -/
def pushKeyMatch (code : String) (mt : Nat) (today : Nat) (r : PushRec) : Bool :=
  r.stock_code == code && r.message_type == mt && r.day == today

/-- Modelled from the spec: `storage.has_pushed_today` (storage.py is not
under src/); per the spec a PushRecord is a dedup witness keyed by
`(stock_code, message_type, calendar_date)`, so the check is existence of
a record with that key dated today. -/
def has_pushed_today (db : MonitorDB) (code : String) (mt : Nat) (today : Nat) : Bool :=
  db.push_records.any (pushKeyMatch code mt today)

/-- Modelled from the spec: `storage.save_push_record` (storage.py is not
under src/); a PushRecord is inserted and never updated. -/
def save_push_record (db : MonitorDB) (r : PushRec) : MonitorDB :=
  ⟨db.push_records ++ [r]⟩

/-- The push `PriceMonitor._trigger_push` as a transition on the push-record store.
If a record with the same `(stock_code, message_type, today)` key exists,
nothing happens.  Otherwise the record is persisted first and only then is
notification delivery attempted (when the notifier is available); the
delivery outcome `deliveryOk` — success, returning false, or raising — is
swallowed by the `try/except` and never modifies the store.  The second
component reports whether delivery was attempted. -/
def trigger_push (db : MonitorDB) (today : Nat) (rec : Recommendation) (mt : Nat)
    (notifierAvailable _deliveryOk : Bool) : MonitorDB × Bool :=
  if has_pushed_today db rec.stock_code mt today then (db, false)
  else
    let db1 := save_push_record db ⟨rec.stock_code, mt, today⟩
    -- delivery is attempted only if the notifier is available; its outcome
    -- (deliveryOk: success, a false return, or an exception swallowed by
    -- the except block) never touches the already-persisted store
    (db1, notifierAvailable)

/-- A sequence of monitor ticks on the same day, each observing a
qualifying price for the same recommendation and message type; each tick
carries its own notifier availability and delivery outcome. -/
def monitorTicks (db : MonitorDB) (today : Nat) (rec : Recommendation) (mt : Nat) :
    List (Bool × Bool) → MonitorDB
  | [] => db
  | (avail, dOk) :: rest =>
      monitorTicks (trigger_push db today rec mt avail dOk).1 today rec mt rest

/-- Number of persisted push records with the given dedup key. -/
def countPush (db : MonitorDB) (code : String) (mt : Nat) (today : Nat) : Nat :=
  (db.push_records.filter (pushKeyMatch code mt today)).length

/-! ## Concurrent-task guard (api.py) -/

/-- The `ANALYSIS_IN_PROGRESS` test-and-insert under `ANALYSIS_LOCK`: rejects
when the key is already in flight, otherwise inserts it and succeeds.
The lock serializes concurrent calls, so concurrency is modelled as an
arbitrary interleaving order of these atomic steps. -/
def tryAcquire (s : List String) (key : String) : List String × Bool :=
  if key ∈ s then (s, false) else (key :: s, true)

/-- The removal `ANALYSIS_IN_PROGRESS.remove` under `ANALYSIS_LOCK`. -/
def releaseKey (s : List String) (key : String) : List String :=
  s.erase key

/-- The three ways the guarded analysis task body can exit. -/
inductive TaskOutcome where
  | success
  | failure
  | exc
deriving DecidableEq

/-- The task `_perform_single_stock_analysis_task`: test-and-insert the stock code;
on rejection return immediately with the set unchanged.  Otherwise run the
task body — whatever its outcome (success, failure result, or exception
caught by `except`) — and remove the key in the `finally` block.  The
boolean reports whether the task body ran. -/
def perform_single_stock_analysis_task (s : List String) (key : String)
    (outcome : TaskOutcome) : List String × Bool :=
  let acq := tryAcquire s key
  if acq.2 then
    -- the task body runs with some outcome; finally releases on every path
    match outcome with
    | .success => (releaseKey acq.1 key, true)
    | .failure => (releaseKey acq.1 key, true)
    | .exc => (releaseKey acq.1 key, true)
  else (acq.1, false)

/-- A sequence of `n` acquire attempts for the same key with no
intervening release; returns the final set and the number of successes. -/
def acquireAttempts (s : List String) (key : String) : Nat → List String × Nat
  | 0 => (s, 0)
  | n + 1 =>
      let acq := tryAcquire s key
      let rest := acquireAttempts acq.1 key n
      (rest.1, rest.2 + (if acq.2 then 1 else 0))

/-! ## Universe provider (scanner_cn.py) -/

/-- The embedded built-in A-share seed list `get_builtin_cn_stocks`. -/
def get_builtin_cn_stocks : List (String × String) :=
  [("600000", "浦发银行"), ("600016", "民生银行"), ("600028", "中国石化"),
   ("600030", "中信证券"), ("600036", "招商银行"), ("600048", "保利发展"),
   ("600050", "中国联通"), ("600104", "上汽集团"), ("600111", "北方稀土"),
   ("600276", "恒瑞医药"), ("600309", "万华化学"), ("600519", "贵州茅台"),
   ("600585", "海螺水泥"), ("600690", "海尔智家"), ("600809", "山西汾酒"),
   ("600887", "伊利股份"), ("600900", "长江电力"), ("601012", "隆基绿能"),
   ("601088", "中国神华"), ("601166", "兴业银行"), ("601318", "中国平安"),
   ("601398", "工商银行"), ("601628", "中国人寿"), ("601668", "中国建筑"),
   ("601888", "中国中免"), ("601899", "紫金矿业"), ("603259", "药明康德"),
   ("603288", "海天味业"), ("603501", "韦尔股份"),
   ("000001", "平安银行"), ("000002", "万科A"), ("000063", "中兴通讯"),
   ("000100", "TCL科技"), ("000157", "中联重科"), ("000333", "美的集团"),
   ("000338", "潍柴动力"), ("000425", "徐工机械"), ("000538", "云南白药"),
   ("000568", "泸州老窖"), ("000625", "长安汽车"), ("000651", "格力电器"),
   ("000661", "长春高新"), ("000725", "京东方A"), ("000776", "广发证券"),
   ("000858", "五粮液"), ("000895", "双汇发展"), ("000938", "紫光股份"),
   ("002001", "新和成"), ("002007", "华兰生物"), ("002027", "分众传媒"),
   ("002049", "紫光国微"), ("002050", "三花智控"), ("002120", "韵达股份"),
   ("002142", "宁波银行"), ("002230", "科大讯飞"), ("002236", "大华股份"),
   ("002241", "歌尔股份"), ("002271", "东方雨虹"), ("002304", "洋河股份"),
   ("002352", "顺丰控股"), ("002410", "广联达"), ("002415", "海康威视"),
   ("002460", "赣锋锂业"), ("002475", "立讯精密"), ("002594", "比亚迪"),
   ("002714", "牧原股份"), ("002812", "恩捷股份"), ("002916", "深南电路"),
   ("300003", "乐普医疗"), ("300014", "亿纬锂能"), ("300015", "爱尔眼科"),
   ("300033", "同花顺"), ("300059", "东方财富"), ("300122", "智飞生物"),
   ("300124", "汇川技术"), ("300142", "沃森生物"), ("300146", "汤臣倍健"),
   ("300347", "泰格医药"), ("300408", "三环集团"), ("300413", "芒果超媒"),
   ("300433", "蓝思科技"), ("300450", "先导智能"), ("300454", "深信服"),
   ("300496", "中科创达"), ("300498", "温氏股份"), ("300529", "健帆生物"),
   ("300558", "贝达药业"), ("300595", "欧普康视"), ("300601", "康泰生物"),
   ("300628", "亿联网络"), ("300661", "圣邦股份"), ("300750", "宁德时代"),
   ("300760", "迈瑞医疗"), ("300782", "卓胜微"), ("300888", "稳健医疗"),
   ("300896", "爱美客"),
   ("688005", "容百科技"), ("688009", "中国通号"), ("688012", "中微公司"),
   ("688036", "传音控股"), ("688111", "金山办公"), ("688126", "沪硅产业"),
   ("688169", "石头科技"), ("688180", "君实生物"), ("688187", "时代电气"),
   ("688188", "柏楚电子"), ("688200", "华峰测控"), ("688208", "道通科技"),
   ("688256", "寒武纪"), ("688269", "凯因科技"), ("688271", "联影医疗"),
   ("688303", "大全能源"), ("688363", "华熙生物"), ("688396", "华润微"),
   ("688516", "奥特维"), ("688520", "神州细胞"), ("688536", "思瑞浦"),
   ("688561", "奇安信"), ("688599", "天合光能"), ("688617", "惠泰医疗"),
   ("688658", "悦康药业"), ("688679", "通源环境"), ("688696", "极米科技"),
   ("688728", "格科微"), ("688772", "珠海冠宇"), ("688798", "艾为电子"),
   ("688799", "华纳药厂"), ("688819", "天能股份")]

/-- Order-preserving deduplication keeping the first occurrence of each
element, mirroring Python's `list(dict.fromkeys(all_stocks))`.  The `seen`
accumulator holds the elements already emitted. -/
def dedupFirst (seen : List (String × String)) :
    List (String × String) → List (String × String)
  | [] => []
  | a :: l => if a ∈ seen then dedupFirst seen l else a :: dedupFirst (a :: seen) l

/-- The provider `fetch_all_cn_stocks`, parameterized by the per-exchange lists of
valid stocks collected from the live provider (the network loops of
`get_stocks_batch_tencent` for Shanghai and Shenzhen).  A nonempty
combined list is deduplicated and returned; an empty one falls back to
the embedded built-in seed list. -/
def fetch_all_cn_stocks (sh_valid sz_valid : List (String × String)) :
    List (String × String) :=
  let all_stocks := sh_valid ++ sz_valid
  if all_stocks ≠ [] then dedupFirst [] all_stocks
  else get_builtin_cn_stocks

/-! ## Indicator engine (scanner_cn.py, is_strong_stock) -/

/-- One row of the daily history dataframe, restricted to the columns the
strength rule reads (close, volume); rows are in chronological order and
the last element is the latest trading day. -/
structure DayBar where
  close : ℚ
  volume : ℚ

/-- Result of `get_stock_info_cn`: market cap (`None` when unavailable),
industry, list date, and the 52-week high/low (`0` when unavailable). -/
structure StockInfo where
  market_cap : Option ℚ
  industry : String
  list_date : String
  fifty_two_week_high : ℚ
  fifty_two_week_low : ℚ

/-- The value at the last row of `rolling(n).mean()`: the arithmetic mean
of the last `n` elements. -/
def sma (n : Nat) (xs : List ℚ) : ℚ :=
  (xs.drop (xs.length - n)).sum / n

/-- The value at the last row of pandas `ewm(span=s).mean()` with the
default `adjust=True`: the weighted average of the series with weights
`(1-α)^i` on the i-th most recent element, where `α = 2/(s+1)`. -/
def ewmAdjLast (span : Nat) (xs : List ℚ) : ℚ :=
  let β : ℚ := 1 - 2 / (span + 1)
  let rev := xs.reverse
  (List.sum ((List.range rev.length).map (fun i => β ^ i * rev.getD i 0)))
    / (List.sum ((List.range rev.length).map (fun i => β ^ i)))

/-- The full `MACD_diff` column: at each row `t`, `EMA12 - EMA26` of the
close prices up to and including `t`. -/
def macdDiffSeries (closes : List ℚ) : List ℚ :=
  (List.range closes.length).map
    (fun t => ewmAdjLast 12 (closes.take (t + 1)) - ewmAdjLast 26 (closes.take (t + 1)))

/-- The indicator values of the latest row (`latest = df.iloc[-1]`). -/
structure Indicators where
  ma5 : ℚ
  ma10 : ℚ
  ma20 : ℚ
  close : ℚ
  macd : ℚ
  dea : ℚ
  vol : ℚ
  volma5 : ℚ
  rs20d : ℚ

/-- The close price 20 rows before the last one, the reference value of
`pct_change(periods=20)` at the latest row. -/
def baseClose (series : List DayBar) : ℚ :=
  ((series.map (fun b => b.close)).getD (series.length - 21) 0)

/-- Compute all latest-row indicators of `is_strong_stock` from the
series: MA5/MA10/MA20 and VolMA5 as rolling means, MACD_diff as
EMA12−EMA26, MACD_dea as EMA9 of the MACD_diff column, and the 20-day
return as `pct_change(20)`.  Faithful to the pandas computation whenever
the reference close of the 20-day return is nonzero (the theorems assume
this; pandas produces an infinity there, which ℚ cannot represent). -/
def computeIndicators (series : List DayBar) : Indicators :=
  let closes := series.map (fun b => b.close)
  let vols := series.map (fun b => b.volume)
  { ma5 := sma 5 closes
    ma10 := sma 10 closes
    ma20 := sma 20 closes
    close := closes.getLast?.getD 0
    macd := ewmAdjLast 12 closes - ewmAdjLast 26 closes
    dea := ewmAdjLast 9 (macdDiffSeries closes)
    vol := vols.getLast?.getD 0
    volma5 := sma 5 vols
    rs20d := (closes.getLast?.getD 0 - baseClose series) / baseClose series }

/-- The `conditions` dict of `is_strong_stock`, in source order: short
trend, medium trend, price strength, MACD signal, volume, and the 20-day
relative-strength condition. -/
def conditionsList (ind : Indicators) : List Bool :=
  [decide (ind.ma5 > ind.ma10),
   decide (ind.ma10 > ind.ma20),
   decide (ind.close > ind.ma5),
   decide (ind.macd > ind.dea ∧ ind.macd > 0),
   decide (ind.vol > ind.volma5 * (0.5 : ℚ)),
   decide (ind.rs20d > (0.15 : ℚ))]

/-- The count `sum(conditions.values())`. -/
def metConditions (ind : Indicators) : Nat :=
  (conditionsList ind).count true

/-- Rounding to `d` decimal places (Python `round(x, d)`; Python rounds
half to even while `round` here rounds half up — the two agree except at
exact half-ulp ties, which no statement below depends on). -/
def roundTo (d : Nat) (q : ℚ) : ℚ :=
  ((round (q * 10 ^ d) : ℤ) : ℚ) / 10 ^ d

/-- The positive result dict built by `is_strong_stock` for a strong
stock.  String fields holding either a formatted number or the literal
text N/A are modelled as `Option ℚ`, `none` standing for N/A; the
condition details are the names of the met conditions. -/
structure ScanResult where
  code : String
  name : String
  week_52_range : Option ℚ
  week_52_high : Option ℚ
  pct_from_high : Option ℚ
  week_52_low : Option ℚ
  pct_from_low : Option ℚ
  list_date : String
  close_price : ℚ
  market_cap : Option ℚ
  industry : String
  ma5 : ℚ
  ma10 : ℚ
  ma20 : ℚ
  macd : ℚ
  macd_dea : ℚ
  vol_multiple : ℚ
  increase_20d : ℚ
  met_conditions : String
  condition_details : List String
deriving DecidableEq

/-- The negative marker dict cached for a weak stock: code, name, the
calendar date it was computed, and the met-conditions summary. -/
structure NegMarker where
  code : String
  name : String
  date : String
  met_conditions : String
deriving DecidableEq

/-- A cached per-symbol entry: either a full positive result dict or a
negative marker dict.  Both are nonempty dicts, hence truthy in Python. -/
inductive CachedData where
  | pos (r : ScanResult)
  | neg (m : NegMarker)
deriving DecidableEq

/-- The date lookup on a cached dict, defaulting to the empty string
(Python `.get`): the positive result dict stores no
date key (the computed `date_str` is never inserted), so the lookup
defaults to the empty string; the negative marker stores its date. -/
def cachedDate : CachedData → String
  | .pos _ => ""
  | .neg m => m.date

/-- The market-cap pre-filter: runs only when the cap is truthy, and
rejects caps above 10^12 yuan. -/
def capFilterB (info : StockInfo) : Bool :=
  truthy info.market_cap && decide (info.market_cap.getD 0 > 1000000000000)

/-- The value `week_52_range_pct`: `(high-low)/low*100` when both 52-week values
are positive, otherwise left at its initial value 0. -/
def week52RangePct (info : StockInfo) : ℚ :=
  if info.fifty_two_week_low > 0 ∧ info.fifty_two_week_high > 0 then
    ((info.fifty_two_week_high - info.fifty_two_week_low) / info.fifty_two_week_low) * 100
  else 0

/-- The 52-week-range pre-filter: runs only when both 52-week values are
positive, and rejects ranges below 250%. -/
def rangeFilterB (info : StockInfo) : Bool :=
  decide (info.fifty_two_week_low > 0) && decide (info.fifty_two_week_high > 0)
    && decide (week52RangePct info < 250)

/-- The result dict assembled for a strong stock (source lines building
`result`): rounded prices and indicators, N/A placeholders for the
52-week fields when the underlying values are unavailable, and the names
of the met conditions. -/
def buildResult (symbol name : String) (info : StockInfo) (ind : Indicators) : ScanResult :=
  let pct_high : ℚ :=
    if info.fifty_two_week_high > 0 then
      ((ind.close - info.fifty_two_week_high) / info.fifty_two_week_high) * 100
    else 0
  let pct_low : ℚ :=
    if info.fifty_two_week_low > 0 then
      ((ind.close - info.fifty_two_week_low) / info.fifty_two_week_low) * 100
    else 0
  { code := symbol
    name := name
    week_52_range := if week52RangePct info > 0 then some (roundTo 2 (week52RangePct info)) else none
    week_52_high := if info.fifty_two_week_high > 0 then some (roundTo 2 info.fifty_two_week_high) else none
    pct_from_high := if info.fifty_two_week_high > 0 then some (roundTo 2 pct_high) else none
    week_52_low := if info.fifty_two_week_low > 0 then some (roundTo 2 info.fifty_two_week_low) else none
    pct_from_low := if info.fifty_two_week_low > 0 then some (roundTo 2 pct_low) else none
    list_date := info.list_date
    close_price := roundTo 2 ind.close
    market_cap := info.market_cap
    industry := info.industry
    ma5 := roundTo 2 ind.ma5
    ma10 := roundTo 2 ind.ma10
    ma20 := roundTo 2 ind.ma20
    macd := roundTo 4 ind.macd
    macd_dea := roundTo 4 ind.dea
    vol_multiple := if ind.volma5 > 0 then roundTo 2 (ind.vol / ind.volma5) else 0
    increase_20d := roundTo 2 (ind.rs20d * 100)
    met_conditions := toString (metConditions ind) ++ "/6"
    condition_details :=
      (List.zip ["短期趋势", "中期趋势", "价格强势", "MACD信号", "成交量", "相对强度"]
        (conditionsList ind)).filterMap (fun p => if p.2 then some p.1 else none) }

/-- The value returned by `is_strong_stock` together with the cache entry
it writes via `save_stock_data_to_cache` (if any). -/
structure ScanOutcome where
  ret : Option CachedData
  cacheWrite : Option CachedData

/-- The non-cached path of `is_strong_stock`: the market-cap pre-filter,
the 52-week-range pre-filter and the minimum-length check each return
None without caching anything; otherwise the six conditions are computed
and either a positive result is returned and cached, or None is returned
and a negative marker is cached. -/
def classifyStock (info : StockInfo) (series : List DayBar)
    (symbol name today : String) : ScanOutcome :=
  if capFilterB info then ⟨none, none⟩
  else if rangeFilterB info then ⟨none, none⟩
  else if series.length < 25 then ⟨none, none⟩
  else
    let ind := computeIndicators series
    if metConditions ind = 6 then
      let r := buildResult symbol name info ind
      ⟨some (.pos r), some (.pos r)⟩
    else
      ⟨none, some (.neg ⟨symbol, name, today, toString (metConditions ind) ++ "/6"⟩)⟩

/-- The scorer `is_strong_stock` with the data cache enabled (the module-level
default `USE_DATA_CACHE = True`): a truthy cached entry whose stored date
equals today is returned as-is — whether it is a positive result or a
negative marker — and only on a cache miss does the classification run. -/
def is_strong_stock (cached : Option CachedData) (today : String) (info : StockInfo)
    (series : List DayBar) (symbol name : String) : Option CachedData :=
  match cached with
  | some c => if cachedDate c = today then some c else (classifyStock info series symbol name today).ret
  | none => (classifyStock info series symbol name today).ret

/-! ## Scan orchestrator (scanner_cn.py, scan_market) -/

/-- The sort key of `results.sort(key=lambda x: x.get('20天涨幅', 0))`:
the rounded 20-day-return percentage of a positive result; a negative
marker dict has no such key, so `.get` defaults it to 0. -/
def key20 : CachedData → ℚ
  | .pos r => r.increase_20d
  | .neg _ => 0

/-- The ordering used by the scan's sort. -/
def keyLe (a b : CachedData) : Prop := key20 a ≤ key20 b

instance : DecidableRel keyLe := fun a b => inferInstanceAs (Decidable (key20 a ≤ key20 b))

instance : IsTotal CachedData keyLe := ⟨fun a b => le_total (key20 a) (key20 b)⟩

instance : IsTrans CachedData keyLe := ⟨fun _ _ _ h1 h2 => le_trans h1 h2⟩

/-- The sort of the accumulated list by the 20-day-return key. -/
def sortResults (l : List CachedData) : List CachedData :=
  List.insertionSort keyLe l

/-- One iteration of the scan loop over `(code, name)` with the value
returned by `is_strong_stock` for that symbol.  A truthy result is
appended to `results`, which is then re-sorted by the 20-day-return key;
`log_strong_stock` then reads the close-price key, which a negative
marker lacks, so on a marker the loop's `except` fires after the append
and the symbol is also counted as skipped. -/
def scanStep (st : List CachedData × List (String × String))
    (item : String × String × Option CachedData) :
    List CachedData × List (String × String) :=
  match item.2.2 with
  | none => st
  | some r =>
      let results := sortResults (st.1 ++ [r])
      match r with
      | .pos _ => (results, st.2)
      | .neg _ => (results, st.2 ++ [(item.1, item.2.1)])

/-- The scan loop of `scan_market` over the per-symbol outcomes, starting
from empty `results` and `skipped`, followed by the final sort. -/
def scan_market (items : List (String × String × Option CachedData)) :
    List CachedData × List (String × String) :=
  let st := items.foldl scanStep ([], [])
  (sortResults st.1, st.2)

/-! ## Persistence of scan results (save_strong_stocks_to_db) -/

/-- A row of the `strong_stocks` table, restricted to the unique-key
columns `(scan_time, stock_code)` plus the payload written from the
result dict (`week_52_high`/`week_52_low` become NULL when the dict holds
the N/A placeholder, which `Option` already models). -/
structure StrongStockRow where
  scan_time : Nat
  stock_code : String
  values : ScanResult
deriving DecidableEq

/-- The unique-constraint key of a row. -/
def keyOf (r : StrongStockRow) : Nat × String :=
  (r.scan_time, r.stock_code)

/-- Whether two rows collide on the unique constraint
`(scan_time, stock_code)`. -/
def sameKey (a b : StrongStockRow) : Bool :=
  decide (keyOf a = keyOf b)

/-- The row inserted for one result dict at the given scan time. -/
def rowOfResult (t : Nat) (r : ScanResult) : StrongStockRow :=
  ⟨t, r.code, r⟩

/-- Modelled from the spec: the storage layer behind `session.merge` /
`session.commit` (storage.py is not under src/); per the spec persistence
is a transactional upsert on the unique key `(scan_time, stock_code)` —
a row with a colliding key is overwritten in place, otherwise the row is
appended. -/
def mergeRow : List StrongStockRow → StrongStockRow → List StrongStockRow
  | [], r => [r]
  | x :: tl, r => if sameKey x r then r :: tl else x :: mergeRow tl r

/-- The persistence `save_strong_stocks_to_db`: upsert one row per result dict, all at
the same scan timestamp. -/
def save_strong_stocks_to_db (tbl : List StrongStockRow) (t : Nat)
    (rs : List ScanResult) : List StrongStockRow :=
  rs.foldl (fun acc r => mergeRow acc (rowOfResult t r)) tbl

/-- Number of rows in the table colliding with `r` on the unique key. -/
def countKey (tbl : List StrongStockRow) (r : StrongStockRow) : Nat :=
  (tbl.filter (fun x => sameKey x r)).length

/-- The table invariant: at most one row per `(scan_time, stock_code)`. -/
def UniqueKeys (tbl : List StrongStockRow) : Prop :=
  ∀ r, countKey tbl r ≤ 1

/-! ## Derived predicates and concrete sample inputs -/

/-- The six strength conditions of the scan rule, written out as a
conjunction over the computed latest-row indicators. -/
def sixConditions (ind : Indicators) : Prop :=
  ind.ma5 > ind.ma10 ∧ ind.ma10 > ind.ma20 ∧ ind.close > ind.ma5
    ∧ (ind.macd > ind.dea ∧ ind.macd > 0)
    ∧ ind.vol > ind.volma5 * (0.5 : ℚ) ∧ ind.rs20d > (0.15 : ℚ)

instance (ind : Indicators) : Decidable (sixConditions ind) := by
  unfold sixConditions
  infer_instance

/-- Stock info with market cap and 52-week range unavailable. -/
def infoUnknown : StockInfo :=
  ⟨none, "N/A", "N/A", 0, 0⟩

/-- A concrete 25-day constant series for instantiating the theorems. -/
def series25 : List DayBar :=
  List.replicate 25 ⟨1, 1⟩

/-- A concrete fresh negative cache marker. -/
def negMarkerSample : NegMarker :=
  ⟨"600000", "浦发银行", "2026-10-12", "4/6"⟩

/-- A concrete positive result dict. -/
def sampleResult : ScanResult :=
  { code := "600519", name := "贵州茅台", week_52_range := none, week_52_high := none
    pct_from_high := none, week_52_low := none, pct_from_low := none
    list_date := "2001-08-27", close_price := 1500, market_cap := none, industry := "白酒"
    ma5 := 1490, ma10 := 1480, ma20 := 1470, macd := 2, macd_dea := 1
    vol_multiple := 1.2, increase_20d := 18.5, met_conditions := "6/6"
    condition_details := ["短期趋势", "中期趋势", "价格强势", "MACD信号", "成交量", "相对强度"] }

/-- The same stock rescanned with a later close price. -/
def sampleResult2 : ScanResult :=
  { sampleResult with close_price := 1501 }

/-- A recommendation with a take-profit band with nonzero bounds. -/
def recTakeProfit : Recommendation :=
  ⟨"600519", "贵州茅台", none, none, some 10, some 20, none, none⟩

/-- A recommendation whose take-profit band has floor exactly 0. -/
def recTakeProfitZeroMin : Recommendation :=
  ⟨"600519", "贵州茅台", none, none, some 0, some 8, none, none⟩

/-- A recommendation with a buy band with nonzero bounds. -/
def recBuy : Recommendation :=
  ⟨"000001", "平安银行", some 2, some 5, none, none, none, none⟩

/-- A recommendation whose buy band has lower bound exactly 0. -/
def recBuyZeroMin : Recommendation :=
  ⟨"000001", "平安银行", some 0, some 5, none, none, none, none⟩

/-- A recommendation used by the push-dedup witness. -/
def recMonitor : Recommendation :=
  ⟨"300750", "宁德时代", some 100, some 120, none, none, none, none⟩

/-! ## Helper lemmas -/

lemma mem_dedupFirst (l : List (String × String)) :
    ∀ seen a, a ∈ dedupFirst seen l → a ∉ seen := by
  induction l with
  | nil => intro seen a h; simp [dedupFirst] at h
  | cons x tl ih =>
      intro seen a h
      by_cases hx : x ∈ seen
      · rw [dedupFirst, if_pos hx] at h
        exact ih seen a h
      · rw [dedupFirst, if_neg hx] at h
        rcases List.mem_cons.mp h with rfl | h2
        · exact hx
        · intro ha
          exact ih (x :: seen) a h2 (List.mem_cons_of_mem x ha)

lemma nodup_dedupFirst (l : List (String × String)) :
    ∀ seen, (dedupFirst seen l).Nodup := by
  induction l with
  | nil => intro seen; simp [dedupFirst]
  | cons x tl ih =>
      intro seen
      by_cases hx : x ∈ seen
      · rw [dedupFirst, if_pos hx]; exact ih seen
      · rw [dedupFirst, if_neg hx]
        refine List.nodup_cons.mpr ⟨?_, ih (x :: seen)⟩
        intro hmem
        exact mem_dedupFirst tl (x :: seen) x hmem (List.mem_cons_self x seen)

/-! ## C9: fallback to the built-in seed list -/

/-- C9.  If live universe enumeration yields no instruments at all, the
universe provider returns the embedded built-in seed list (which is
nonempty) rather than raising, so a scan completes; and whenever
enumeration yields anything, the returned live list is deduplicated. -/
theorem c9_universe_fallback :
    fetch_all_cn_stocks [] [] = get_builtin_cn_stocks
    ∧ get_builtin_cn_stocks ≠ []
    ∧ ∀ sh_valid sz_valid : List (String × String),
        sh_valid ++ sz_valid ≠ [] → (fetch_all_cn_stocks sh_valid sz_valid).Nodup := by
  refine ⟨rfl, by unfold get_builtin_cn_stocks; exact List.cons_ne_nil _ _, ?_⟩
  intro sh sz h
  show (if sh ++ sz ≠ [] then dedupFirst [] (sh ++ sz) else get_builtin_cn_stocks).Nodup
  rw [if_pos h]
  exact nodup_dedupFirst (sh ++ sz) []

/-- Witness for C9 at concrete inputs: an empty enumeration returns the
seed list, and a nonempty enumeration with a duplicate is deduplicated. -/
theorem c9_universe_fallback_witness :
    fetch_all_cn_stocks [] [] = get_builtin_cn_stocks
    ∧ get_builtin_cn_stocks ≠ []
    ∧ ([("600000", "a"), ("600000", "a")] ++ ([] : List (String × String)) ≠ [])
    ∧ (fetch_all_cn_stocks [("600000", "a"), ("600000", "a")] []).Nodup :=
  ⟨c9_universe_fallback.1, c9_universe_fallback.2.1, by decide,
   c9_universe_fallback.2.2 [("600000", "a"), ("600000", "a")] [] (by decide)⟩

/-! ## C7: the concurrent-task guard -/

lemma acquireAttempts_of_mem (key : String) :
    ∀ (n : Nat) (s : List String), key ∈ s → acquireAttempts s key n = (s, 0) := by
  intro n
  induction n with
  | zero => intro s _; rfl
  | succ m ih =>
      intro s hs
      simp only [acquireAttempts, tryAcquire, if_pos hs]
      rw [ih s hs]
      simp

/-- C7.  With the key not in flight, any number of serialized acquire
attempts (the lock serializes concurrent calls) succeeds exactly once;
the guarded task removes the key on every exit path — success, failure,
or exception — leaving the set as it was, so a subsequent acquire of the
key succeeds; and while the key is in flight every further trigger is
rejected with the set unchanged. -/
theorem c7_guard_exclusive :
    ∀ (s : List String) (key : String) (n : Nat) (outcome : TaskOutcome),
    key ∉ s →
    (acquireAttempts s key (n + 1)).2 = 1
    ∧ (∀ oc : TaskOutcome, perform_single_stock_analysis_task s key oc = (s, true))
    ∧ (tryAcquire (perform_single_stock_analysis_task s key outcome).1 key).2 = true
    ∧ (∀ s2 : List String, key ∈ s2 →
        perform_single_stock_analysis_task s2 key outcome = (s2, false)) := by
  intro s key n outcome hs
  have hrun : ∀ oc : TaskOutcome, perform_single_stock_analysis_task s key oc = (s, true) := by
    intro oc
    simp only [perform_single_stock_analysis_task, tryAcquire, if_neg hs, if_pos]
    cases oc <;> simp [releaseKey, List.erase_cons_head]
  refine ⟨?_, hrun, ?_, ?_⟩
  · simp only [acquireAttempts, tryAcquire, if_neg hs]
    rw [acquireAttempts_of_mem key n (key :: s) (List.mem_cons_self key s)]
    simp
  · rw [hrun outcome]
    simp [tryAcquire, if_neg hs]
  · intro s2 hs2
    simp [perform_single_stock_analysis_task, tryAcquire, if_pos hs2]

/-- Witness for C7 at a concrete state: an empty in-flight set, three
concurrent triggers for the same stock, and an exception outcome. -/
theorem c7_guard_exclusive_witness :
    ("600519" ∉ ([] : List String))
    ∧ (acquireAttempts [] "600519" 3).2 = 1
    ∧ (∀ oc : TaskOutcome, perform_single_stock_analysis_task [] "600519" oc = ([], true))
    ∧ (tryAcquire (perform_single_stock_analysis_task [] "600519" TaskOutcome.exc).1 "600519").2 = true
    ∧ (∀ s2 : List String, "600519" ∈ s2 →
        perform_single_stock_analysis_task s2 "600519" TaskOutcome.exc = (s2, false)) :=
  ⟨by decide,
   (c7_guard_exclusive [] "600519" 2 TaskOutcome.exc (by decide)).1,
   (c7_guard_exclusive [] "600519" 2 TaskOutcome.exc (by decide)).2.1,
   (c7_guard_exclusive [] "600519" 2 TaskOutcome.exc (by decide)).2.2.1,
   (c7_guard_exclusive [] "600519" 2 TaskOutcome.exc (by decide)).2.2.2⟩

/-! ## C5 and C6: the monitor's band checks -/

/-- C5 (amended).  For a recommendation whose take-profit bounds are both
present and nonzero, the take-profit alert triggers exactly when the
price reaches or exceeds the band's floor; the upper bound's value is
never compared against the price. -/
theorem c5_take_profit_floor (rec : Recommendation) (price tmin tmax : ℚ)
    (h1 : rec.take_profit_price_min = some tmin) (h2 : tmin ≠ 0)
    (h3 : rec.take_profit_price_max = some tmax) (h4 : tmax ≠ 0) :
    MSG_TYPE_TAKE_PROFIT ∈ check_price_condition rec price ↔ tmin ≤ price := by
  have ht1 : truthy rec.take_profit_price_min = true := by simp [truthy, h1, h2]
  have ht3 : truthy rec.take_profit_price_max = true := by simp [truthy, h3, h4]
  simp only [check_price_condition, ht1, ht3, h1, Option.getD_some, true_and,
    List.mem_append]
  split_ifs <;>
    simp_all [MSG_TYPE_BUY, MSG_TYPE_TAKE_PROFIT, MSG_TYPE_STOP_LOSS]

/-- Witness for C5 at a concrete recommendation and quote. -/
theorem c5_take_profit_floor_witness :
    recTakeProfit.take_profit_price_min = some 10
    ∧ (10 : ℚ) ≠ 0
    ∧ recTakeProfit.take_profit_price_max = some 20
    ∧ (20 : ℚ) ≠ 0
    ∧ (MSG_TYPE_TAKE_PROFIT ∈ check_price_condition recTakeProfit 15 ↔ (10 : ℚ) ≤ 15) :=
  ⟨rfl, by norm_num, rfl, by norm_num,
   c5_take_profit_floor recTakeProfit 15 10 20 rfl (by norm_num) rfl (by norm_num)⟩

/-- Counterexample to C5 as stated: this recommendation has a take-profit
band — both bounds present, the band being [0, 8] — and the quote price 5
reaches the floor, yet no take-profit alert triggers, because Python's
truthiness test on the floor 0.0 disables the whole check. -/
theorem c5_take_profit_zero_floor_counterexample :
    recTakeProfitZeroMin.take_profit_price_min = some 0
    ∧ recTakeProfitZeroMin.take_profit_price_max = some 8
    ∧ ((0 : ℚ) ≤ 5)
    ∧ MSG_TYPE_TAKE_PROFIT ∉ check_price_condition recTakeProfitZeroMin 5 := by
  refine ⟨rfl, rfl, by norm_num, ?_⟩
  decide

/-- C6 (amended).  For a recommendation whose buy bounds are both present
and nonzero, the buy alert triggers exactly when the price lies in the
closed interval between them; in particular a price exactly equal to the
lower bound triggers. -/
theorem c6_buy_band_inclusive (rec : Recommendation) (price bmin bmax : ℚ)
    (h1 : rec.buy_price_min = some bmin) (h2 : bmin ≠ 0)
    (h3 : rec.buy_price_max = some bmax) (h4 : bmax ≠ 0) :
    MSG_TYPE_BUY ∈ check_price_condition rec price ↔ bmin ≤ price ∧ price ≤ bmax := by
  have ht1 : truthy rec.buy_price_min = true := by simp [truthy, h1, h2]
  have ht3 : truthy rec.buy_price_max = true := by simp [truthy, h3, h4]
  simp only [check_price_condition, ht1, ht3, h1, h3, Option.getD_some, true_and,
    List.mem_append]
  split_ifs <;>
    simp_all [MSG_TYPE_BUY, MSG_TYPE_TAKE_PROFIT, MSG_TYPE_STOP_LOSS]

/-- Witness for C6 at a concrete recommendation with the quote price
exactly on the lower bound (the inclusive-boundary scenario). -/
theorem c6_buy_band_inclusive_witness :
    recBuy.buy_price_min = some 2
    ∧ (2 : ℚ) ≠ 0
    ∧ recBuy.buy_price_max = some 5
    ∧ (5 : ℚ) ≠ 0
    ∧ (MSG_TYPE_BUY ∈ check_price_condition recBuy 2 ↔ (2 : ℚ) ≤ 2 ∧ (2 : ℚ) ≤ 5) :=
  ⟨rfl, by norm_num, rfl, by norm_num,
   c6_buy_band_inclusive recBuy 2 2 5 rfl (by norm_num) rfl (by norm_num)⟩

/-- Counterexample to C6 as stated: this recommendation has both buy
bounds present — the band being [0, 5] — and the quote price 3 lies
inside the band, yet no buy alert triggers, because Python's truthiness
test on the lower bound 0.0 disables the whole check. -/
theorem c6_buy_zero_bound_counterexample :
    recBuyZeroMin.buy_price_min = some 0
    ∧ recBuyZeroMin.buy_price_max = some 5
    ∧ ((0 : ℚ) ≤ 3 ∧ (3 : ℚ) ≤ 5)
    ∧ MSG_TYPE_BUY ∉ check_price_condition recBuyZeroMin 3 := by
  refine ⟨rfl, rfl, by norm_num, ?_⟩
  decide

/-! ## C4: at most one push record per key and day -/

lemma countPush_zero_of_not_pushed (db : MonitorDB) (code : String) (mt today : Nat)
    (h : has_pushed_today db code mt today = false) :
    countPush db code mt today = 0 := by
  unfold has_pushed_today at h
  unfold countPush
  rw [List.length_eq_zero, List.filter_eq_nil_iff]
  intro a ha hpa
  rw [List.any_eq_false] at h
  exact h a ha hpa

lemma countPush_pos_of_pushed (db : MonitorDB) (code : String) (mt today : Nat)
    (h : has_pushed_today db code mt today = true) :
    0 < countPush db code mt today := by
  unfold has_pushed_today at h
  rw [List.any_eq_true] at h
  obtain ⟨a, ha, hpa⟩ := h
  unfold countPush
  exact List.length_pos.mpr (List.ne_nil_of_mem (List.mem_filter.mpr ⟨ha, hpa⟩))

lemma countPush_trigger_push (db : MonitorDB) (today : Nat) (rec : Recommendation)
    (mt : Nat) (avail dOk : Bool) :
    countPush (trigger_push db today rec mt avail dOk).1 rec.stock_code mt today
      = if countPush db rec.stock_code mt today = 0 then 1
        else countPush db rec.stock_code mt today := by
  by_cases h : has_pushed_today db rec.stock_code mt today = true
  · have hpos := countPush_pos_of_pushed db rec.stock_code mt today h
    unfold trigger_push
    rw [if_pos h, if_neg (by omega)]
  · have hf : has_pushed_today db rec.stock_code mt today = false := by
      simp only [Bool.not_eq_true] at h
      exact h
    have hz := countPush_zero_of_not_pushed db rec.stock_code mt today hf
    unfold trigger_push
    rw [if_neg h]
    show countPush (save_push_record db ⟨rec.stock_code, mt, today⟩) rec.stock_code mt today
      = if countPush db rec.stock_code mt today = 0 then 1
        else countPush db rec.stock_code mt today
    rw [if_pos hz]
    unfold countPush at hz
    unfold countPush save_push_record
    rw [List.filter_append, List.length_append, hz]
    simp [pushKeyMatch]

lemma countPush_monitorTicks (today : Nat) (rec : Recommendation) (mt : Nat) :
    ∀ (ticks : List (Bool × Bool)) (db : MonitorDB),
    countPush db rec.stock_code mt today ≤ 1 →
    countPush (monitorTicks db today rec mt ticks) rec.stock_code mt today ≤ 1 := by
  intro ticks
  induction ticks with
  | nil => intro db h; exact h
  | cons t rest ih =>
      intro db h
      obtain ⟨avail, dOk⟩ := t
      rw [monitorTicks]
      apply ih
      rw [countPush_trigger_push]
      split <;> omega

/-- C4.  Starting from a day with no push record for the key
`(stock_code, message_type, today)`, any number of monitor ticks — each
with its own notifier availability and delivery outcome — creates at most
one push record for that key; the persisted store after a trigger does
not depend on the delivery outcome (a delivery failure never retracts the
record); and whenever delivery is attempted, the record is already
persisted in the store. -/
theorem c4_push_dedup_at_most_once :
    ∀ (db : MonitorDB) (today : Nat) (rec : Recommendation) (mt : Nat)
      (ticks : List (Bool × Bool)) (avail dOk : Bool),
    countPush db rec.stock_code mt today = 0 →
    countPush (monitorTicks db today rec mt ticks) rec.stock_code mt today ≤ 1
    ∧ (trigger_push db today rec mt avail dOk).1 = (trigger_push db today rec mt avail true).1
    ∧ ((trigger_push db today rec mt avail dOk).2 = true →
        (⟨rec.stock_code, mt, today⟩ : PushRec)
          ∈ (trigger_push db today rec mt avail dOk).1.push_records) := by
  intro db today rec mt ticks avail dOk h0
  have hfalse : has_pushed_today db rec.stock_code mt today = false := by
    by_contra hc
    have := countPush_pos_of_pushed db rec.stock_code mt today
      (Bool.not_eq_false _ |>.mp hc)
    omega
  refine ⟨countPush_monitorTicks today rec mt ticks db (by omega), ?_, ?_⟩
  · unfold trigger_push
    split <;> rfl
  · intro _
    unfold trigger_push
    rw [if_neg (by rw [hfalse]; exact Bool.false_ne_true)]
    unfold save_push_record
    exact List.mem_append_right _ (List.mem_singleton_self _)

/-- Witness for C4: an empty push store, two qualifying ticks the same
day (the first with a failed delivery), and a failed-delivery trigger. -/
theorem c4_push_dedup_at_most_once_witness :
    countPush ⟨[]⟩ recMonitor.stock_code MSG_TYPE_BUY 20261012 = 0
    ∧ (countPush (monitorTicks ⟨[]⟩ 20261012 recMonitor MSG_TYPE_BUY [(true, false), (true, true)])
          recMonitor.stock_code MSG_TYPE_BUY 20261012 ≤ 1
       ∧ (trigger_push ⟨[]⟩ 20261012 recMonitor MSG_TYPE_BUY true false).1
           = (trigger_push ⟨[]⟩ 20261012 recMonitor MSG_TYPE_BUY true true).1
       ∧ ((trigger_push ⟨[]⟩ 20261012 recMonitor MSG_TYPE_BUY true false).2 = true →
           (⟨recMonitor.stock_code, MSG_TYPE_BUY, 20261012⟩ : PushRec)
             ∈ (trigger_push ⟨[]⟩ 20261012 recMonitor MSG_TYPE_BUY true false).1.push_records)) :=
  ⟨rfl, c4_push_dedup_at_most_once ⟨[]⟩ 20261012 recMonitor MSG_TYPE_BUY
    [(true, false), (true, true)] true false rfl⟩

/-! ## C3: idempotent upsert of scan results -/

lemma sameKey_iff (a b : StrongStockRow) : sameKey a b = true ↔ keyOf a = keyOf b := by
  simp [sameKey]

lemma sameKey_refl (a : StrongStockRow) : sameKey a a = true := by
  simp [sameKey]

lemma countKey_congr (tbl : List StrongStockRow) (k k' : StrongStockRow)
    (h : keyOf k = keyOf k') : countKey tbl k = countKey tbl k' := by
  unfold countKey
  congr 1
  apply List.filter_congr
  intro x _
  simp [sameKey, h]

lemma countKey_cons (x : StrongStockRow) (tl : List StrongStockRow) (k : StrongStockRow) :
    countKey (x :: tl) k = (if sameKey x k = true then 1 else 0) + countKey tl k := by
  unfold countKey
  rw [List.filter_cons]
  by_cases h : sameKey x k = true
  · rw [if_pos h, if_pos h, List.length_cons]
    omega
  · rw [if_neg h, if_neg h]
    omega

lemma countKey_mergeRow_self (r : StrongStockRow) :
    ∀ tbl : List StrongStockRow,
    countKey (mergeRow tbl r) r = max (countKey tbl r) 1 := by
  intro tbl
  induction tbl with
  | nil =>
      unfold mergeRow
      rw [countKey_cons, if_pos (sameKey_refl r)]
      unfold countKey
      simp
  | cons x tl ih =>
      unfold mergeRow
      by_cases h : sameKey x r = true
      · rw [if_pos h, countKey_cons, countKey_cons, if_pos (sameKey_refl r), if_pos h]
        omega
      · rw [if_neg h, countKey_cons, countKey_cons, if_neg h, ih]
        omega

lemma countKey_mergeRow_other (r k : StrongStockRow) (hk : keyOf r ≠ keyOf k) :
    ∀ tbl : List StrongStockRow,
    countKey (mergeRow tbl r) k = countKey tbl k := by
  have hrk : sameKey r k = true → False := fun hs => hk ((sameKey_iff r k).mp hs)
  intro tbl
  induction tbl with
  | nil =>
      unfold mergeRow
      rw [countKey_cons, if_neg hrk]
      simp
  | cons x tl ih =>
      unfold mergeRow
      by_cases h : sameKey x r = true
      · rw [if_pos h, countKey_cons, countKey_cons, if_neg hrk]
        have hxk : sameKey x k = true → False := by
          intro hs
          exact hk (((sameKey_iff x r).mp h) ▸ (sameKey_iff x k).mp hs)
        rw [if_neg hxk]
      · rw [if_neg h, countKey_cons, countKey_cons, ih]

lemma countKey_mergeRow_le (tbl : List StrongStockRow) (r k : StrongStockRow) :
    countKey (mergeRow tbl r) k ≤ max (countKey tbl k) 1 := by
  by_cases h : keyOf r = keyOf k
  · rw [countKey_congr (mergeRow tbl r) k r h.symm, countKey_mergeRow_self r tbl,
      countKey_congr tbl k r h.symm]
  · rw [countKey_mergeRow_other r k h tbl]
    omega

lemma uniqueKeys_mergeRow (tbl : List StrongStockRow) (r : StrongStockRow)
    (h : UniqueKeys tbl) : UniqueKeys (mergeRow tbl r) := by
  intro k
  have h1 := countKey_mergeRow_le tbl r k
  have h2 := h k
  omega

lemma uniqueKeys_of_cons (x : StrongStockRow) (tl : List StrongStockRow)
    (h : UniqueKeys (x :: tl)) : UniqueKeys tl := by
  intro k
  have := h k
  rw [countKey_cons] at this
  omega

lemma mem_mergeRow_sameKey (r : StrongStockRow) :
    ∀ tbl : List StrongStockRow, UniqueKeys tbl →
    ∀ x ∈ mergeRow tbl r, sameKey x r = true → x = r := by
  intro tbl
  induction tbl with
  | nil =>
      intro _ x hx _
      unfold mergeRow at hx
      exact List.mem_singleton.mp hx
  | cons x0 tl ih =>
      intro hU x hx hxr
      unfold mergeRow at hx
      by_cases h0 : sameKey x0 r = true
      · rw [if_pos h0] at hx
        rcases List.mem_cons.mp hx with rfl | h2
        · rfl
        · exfalso
          have hcnt : countKey (x0 :: tl) r ≤ 1 := hU r
          rw [countKey_cons, if_pos h0] at hcnt
          have hmem : x ∈ tl.filter (fun y => sameKey y r) :=
            List.mem_filter.mpr ⟨h2, hxr⟩
          have : 0 < countKey tl r := by
            unfold countKey
            exact List.length_pos.mpr (List.ne_nil_of_mem hmem)
          omega
      · rw [if_neg h0] at hx
        rcases List.mem_cons.mp hx with rfl | h2
        · exact absurd hxr h0
        · exact ih (uniqueKeys_of_cons x0 tl hU) x h2 hxr

lemma uniqueKeys_save (t : Nat) :
    ∀ (rs : List ScanResult) (tbl : List StrongStockRow),
    UniqueKeys tbl → UniqueKeys (save_strong_stocks_to_db tbl t rs) := by
  intro rs
  induction rs with
  | nil => intro tbl h; exact h
  | cons r rest ih =>
      intro tbl h
      exact ih (mergeRow tbl (rowOfResult t r)) (uniqueKeys_mergeRow tbl (rowOfResult t r) h)

/-- C3.  On a table with at most one row per `(scan_time, stock_code)`,
upserting two records with the same key — a rescan persisted at the same
timestamp — leaves exactly one row with that key, and that row carries
the values of the later record; and a full persistence pass never
introduces duplicate keys, so re-running it cannot duplicate rows. -/
theorem c3_upsert_idempotent :
    ∀ (tbl : List StrongStockRow) (row row' : StrongStockRow) (t : Nat)
      (rs : List ScanResult),
    UniqueKeys tbl → sameKey row row' = true →
    countKey (mergeRow (mergeRow tbl row) row') row' = 1
    ∧ (∀ x ∈ mergeRow (mergeRow tbl row) row', sameKey x row' = true → x = row')
    ∧ UniqueKeys (save_strong_stocks_to_db tbl t rs) := by
  intro tbl row row' t rs hU hkey
  have hU1 : UniqueKeys (mergeRow tbl row) := uniqueKeys_mergeRow tbl row hU
  refine ⟨?_, mem_mergeRow_sameKey row' (mergeRow tbl row) hU1, uniqueKeys_save t rs tbl hU⟩
  rw [countKey_mergeRow_self row' (mergeRow tbl row)]
  have := hU1 row'
  omega

/-- Witness for C3: an empty table, the same stock persisted twice at the
same scan time with an updated close price, and a two-result batch. -/
theorem c3_upsert_idempotent_witness :
    UniqueKeys []
    ∧ sameKey (rowOfResult 5 sampleResult) (rowOfResult 5 sampleResult2) = true
    ∧ (countKey (mergeRow (mergeRow [] (rowOfResult 5 sampleResult)) (rowOfResult 5 sampleResult2))
          (rowOfResult 5 sampleResult2) = 1
       ∧ (∀ x ∈ mergeRow (mergeRow [] (rowOfResult 5 sampleResult)) (rowOfResult 5 sampleResult2),
            sameKey x (rowOfResult 5 sampleResult2) = true → x = rowOfResult 5 sampleResult2)
       ∧ UniqueKeys (save_strong_stocks_to_db [] 5 [sampleResult, sampleResult2])) :=
  ⟨fun r => by simp [countKey], by decide,
   c3_upsert_idempotent [] (rowOfResult 5 sampleResult) (rowOfResult 5 sampleResult2) 5
     [sampleResult, sampleResult2] (fun r => by simp [countKey]) (by decide)⟩

/-! ## C8: results stay sorted by 20-day return -/

lemma sorted_sortResults (l : List CachedData) : List.Sorted keyLe (sortResults l) :=
  List.sorted_insertionSort keyLe l

lemma sorted_scanStep (st : List CachedData × List (String × String))
    (item : String × String × Option CachedData) (h : List.Sorted keyLe st.1) :
    List.Sorted keyLe (scanStep st item).1 := by
  unfold scanStep
  rcases item with ⟨code, name, res⟩
  cases res with
  | none => exact h
  | some r =>
      cases r with
      | pos p => exact sorted_sortResults _
      | neg m => exact sorted_sortResults _

lemma sorted_scanFold (items : List (String × String × Option CachedData)) :
    ∀ st : List CachedData × List (String × String),
    List.Sorted keyLe st.1 → List.Sorted keyLe (items.foldl scanStep st).1 := by
  induction items with
  | nil => intro st h; exact h
  | cons item rest ih =>
      intro st h
      exact ih (scanStep st item) (sorted_scanStep st item h)

/-- C8.  Over any sequence of per-symbol scan outcomes, the accumulated
result list is sorted ascending by the 20-day-return key after every
iteration of the loop (every prefix of the input is itself such a
sequence, and the state after it is covered by the first conjunct), and
the final result set produced by the scan is sorted ascending as well. -/
theorem c8_results_sorted_by_return (items : List (String × String × Option CachedData)) :
    List.Sorted keyLe ((items.foldl scanStep ([], [])).1)
    ∧ List.Sorted keyLe ((scan_market items).1) := by
  refine ⟨sorted_scanFold items ([], []) List.sorted_nil, ?_⟩
  unfold scan_market
  exact sorted_sortResults _

/-! ## C2: a fresh negative cache marker is surfaced as a result -/

/-- C2 is violated by the code: for a symbol classified Weak earlier the
same day, the fresh negative cache marker (its stored date equals today)
is returned by `is_strong_stock` as a truthy dict, and the scan loop's
`if res:` then appends it to the Strong results list — sorting it in with
key 0 — before `log_strong_stock` raises `KeyError` on the missing
close-price key, which the loop catches, also counting the symbol as
skipped.  The marker row remains in the emitted results, contradicting
the claim that nothing is emitted. -/
theorem c2_negative_marker_surfaced :
    is_strong_stock (some (CachedData.neg negMarkerSample)) "2026-10-12" infoUnknown []
        "600000" "浦发银行"
      = some (CachedData.neg negMarkerSample)
    ∧ (scanStep ([], []) ("600000", "浦发银行", some (CachedData.neg negMarkerSample))).1
        = [CachedData.neg negMarkerSample]
    ∧ (scanStep ([], []) ("600000", "浦发银行", some (CachedData.neg negMarkerSample))).2
        = [("600000", "浦发银行")] := by
  refine ⟨?_, rfl, rfl⟩
  rw [is_strong_stock]
  rw [if_pos (by rfl)]

/-! ## C1 and C10: the six-condition strength rule and the pre-filters -/

lemma count_six_bools :
    ∀ a b c d e f : Bool,
    ([a, b, c, d, e, f].count true = 6)
      ↔ (a = true ∧ b = true ∧ c = true ∧ d = true ∧ e = true ∧ f = true) := by
  decide

lemma metConditions_eq_six (ind : Indicators) :
    metConditions ind = 6 ↔ sixConditions ind := by
  unfold metConditions conditionsList sixConditions
  rw [count_six_bools]
  simp only [decide_eq_true_eq]

lemma capFilterB_none (info : StockInfo) (h : info.market_cap = none) :
    capFilterB info = false := by
  unfold capFilterB
  rw [h]
  rfl

lemma rangeFilterB_eq_false (info : StockInfo)
    (h : info.fifty_two_week_high = 0 ∨ info.fifty_two_week_low = 0) :
    rangeFilterB info = false := by
  unfold rangeFilterB
  rcases h with h | h
  · rw [h]
    simp
  · rw [h]
    simp

lemma is_strong_stock_ret_unknown (info : StockInfo) (series : List DayBar)
    (today symbol name : String) (hc : info.market_cap = none)
    (hh : info.fifty_two_week_high = 0) (_hl : info.fifty_two_week_low = 0)
    (hlen : 25 ≤ series.length) :
    is_strong_stock none today info series symbol name
      = (if metConditions (computeIndicators series) = 6
         then some (CachedData.pos (buildResult symbol name info (computeIndicators series)))
         else none) := by
  have hcap : capFilterB info = false := capFilterB_none info hc
  have hrange : rangeFilterB info = false := rangeFilterB_eq_false info (Or.inl hh)
  have h3 : ¬ series.length < 25 := by omega
  show (classifyStock info series symbol name today).ret = _
  unfold classifyStock
  rw [if_neg (by rw [hcap]; exact Bool.false_ne_true),
    if_neg (by rw [hrange]; exact Bool.false_ne_true),
    if_neg h3]
  by_cases hm : metConditions (computeIndicators series) = 6
  · simp [hm]
  · simp [hm]

/-- C1.  On the cache-miss path with pre-filters passing (market cap and
52-week range unavailable), for any series of at least 25 periods whose
20-day reference close is positive (so all indicator fields are
well-defined), the scan emits a Strong result record if and only if all
six conditions hold — MA5 > MA10, MA10 > MA20, close > MA5, MACD_diff
above both its signal and zero, volume above half of VolMA5, and 20-day
return above 15% — and whenever any single condition fails, nothing is
emitted. -/
theorem c1_strong_iff_six_conditions :
    ∀ (series : List DayBar) (today symbol name : String),
    25 ≤ series.length → 0 < baseClose series →
    (((is_strong_stock none today infoUnknown series symbol name).isSome = true)
        ↔ sixConditions (computeIndicators series))
    ∧ (¬ sixConditions (computeIndicators series) →
        is_strong_stock none today infoUnknown series symbol name = none) := by
  intro series today symbol name hlen _hbase
  have hret := is_strong_stock_ret_unknown infoUnknown series today symbol name
    rfl rfl rfl hlen
  rw [hret]
  by_cases hm : metConditions (computeIndicators series) = 6
  · have hs := (metConditions_eq_six _).mp hm
    rw [if_pos hm]
    exact ⟨⟨fun _ => hs, fun _ => rfl⟩, fun hns => absurd hs hns⟩
  · have hs : ¬ sixConditions (computeIndicators series) :=
      fun h => hm ((metConditions_eq_six _).mpr h)
    rw [if_neg hm]
    refine ⟨⟨fun hfalse => ?_, fun h => absurd h hs⟩, fun _ => rfl⟩
    simp at hfalse

/-- Witness for C1 at a concrete 25-day series (constant prices, hence
Weak: the instantiated equivalence and the Weak emission both follow). -/
theorem c1_strong_iff_six_conditions_witness :
    25 ≤ series25.length ∧ 0 < baseClose series25 ∧
    ((((is_strong_stock none "2026-10-12" infoUnknown series25 "600519" "贵州茅台").isSome = true)
        ↔ sixConditions (computeIndicators series25))
     ∧ (¬ sixConditions (computeIndicators series25) →
         is_strong_stock none "2026-10-12" infoUnknown series25 "600519" "贵州茅台" = none)) :=
  ⟨by decide, by decide,
   c1_strong_iff_six_conditions series25 "2026-10-12" "600519" "贵州茅台"
     (by decide) (by decide)⟩

/-- C10.  When the market cap is unavailable the market-cap pre-filter
is skipped; when either 52-week value is unavailable the 52-week-range
pre-filter is skipped; and an instrument with both unknown can therefore
still be classified Strong exactly under the six conditions, in which
case all five 52-week fields of the emitted record are the N/A
placeholder. -/
theorem c10_unavailable_info_skips_prefilters :
    (∀ info : StockInfo, info.market_cap = none → capFilterB info = false)
    ∧ (∀ info : StockInfo,
        info.fifty_two_week_high = 0 ∨ info.fifty_two_week_low = 0 →
        rangeFilterB info = false)
    ∧ (∀ (info : StockInfo) (series : List DayBar) (today symbol name : String),
        info.market_cap = none → info.fifty_two_week_high = 0 →
        info.fifty_two_week_low = 0 → 25 ≤ series.length → 0 < baseClose series →
        (((is_strong_stock none today info series symbol name).isSome = true)
            ↔ sixConditions (computeIndicators series))
        ∧ (∀ r : ScanResult,
            is_strong_stock none today info series symbol name = some (CachedData.pos r) →
            r.week_52_range = none ∧ r.week_52_high = none ∧ r.pct_from_high = none
              ∧ r.week_52_low = none ∧ r.pct_from_low = none)) := by
  refine ⟨capFilterB_none, rangeFilterB_eq_false, ?_⟩
  intro info series today symbol name hc hh hl hlen _hbase
  have hret := is_strong_stock_ret_unknown info series today symbol name hc hh hl hlen
  constructor
  · rw [hret]
    by_cases hm : metConditions (computeIndicators series) = 6
    · rw [if_pos hm]
      exact ⟨fun _ => (metConditions_eq_six _).mp hm, fun _ => rfl⟩
    · rw [if_neg hm]
      refine ⟨fun hfalse => ?_, fun h => absurd ((metConditions_eq_six _).mpr h) hm⟩
      simp at hfalse
  · intro r hr
    rw [hret] at hr
    by_cases hm : metConditions (computeIndicators series) = 6
    · rw [if_pos hm] at hr
      have h1 := Option.some.inj hr
      have h2 := CachedData.pos.inj h1.symm
      subst h2
      unfold buildResult week52RangePct
      rw [hh, hl]
      norm_num
    · rw [if_neg hm] at hr
      exact absurd hr (by simp)

/-- Witness for C10 at a concrete stock with no market cap and no
52-week data, on a concrete 25-day series. -/
theorem c10_unavailable_info_skips_prefilters_witness :
    capFilterB infoUnknown = false
    ∧ rangeFilterB infoUnknown = false
    ∧ ((((is_strong_stock none "2026-10-13" infoUnknown series25 "000001" "平安银行").isSome = true)
          ↔ sixConditions (computeIndicators series25))
       ∧ (∀ r : ScanResult,
           is_strong_stock none "2026-10-13" infoUnknown series25 "000001" "平安银行"
              = some (CachedData.pos r) →
           r.week_52_range = none ∧ r.week_52_high = none ∧ r.pct_from_high = none
             ∧ r.week_52_low = none ∧ r.pct_from_low = none)) :=
  ⟨c10_unavailable_info_skips_prefilters.1 infoUnknown rfl,
   c10_unavailable_info_skips_prefilters.2.1 infoUnknown (Or.inl rfl),
   c10_unavailable_info_skips_prefilters.2.2 infoUnknown series25 "2026-10-13" "000001"
     "平安银行" rfl rfl rfl (by decide) (by decide)⟩

end DailyStock
